import Mathlib

/-
Verification of the poke contract-interaction CLI.

This file shallowly embeds the pure logic of the poke repository:
the fixed-point decimal conversion registry (parseToAtto, truncateDecimal,
toDisplay), the command-synthesis documentation assembly, the build cache
control flow, the solc-output contract selection, the key/address parsing
with the default-key environment, the constant-method dispatch handler,
and the hardware-wallet signing closure.  External effects (file system,
gob codec, compiler, node, device) are modelled as explicit oracle fields
of world records; machine integers are Int/Nat.
-/

namespace Poke

/-! ## String helpers mirroring the Go standard library

String primitives are defined over the underlying character lists so that
every definition evaluates by kernel reduction. -/

/-- Go strings.HasPrefix, over the character list of the string. -/
def strStartsWith (s pre : String) : Bool :=
  pre.data.isPrefixOf s.data

/-- Go strings.HasSuffix, over the character list of the string. -/
def strEndsWith (s suf : String) : Bool :=
  suf.data.isSuffixOf s.data

/-- Drops the first `n` characters of a string. -/
def strDrop (s : String) (n : Nat) : String :=
  String.mk (s.data.drop n)

/-- Drops the last `n` characters of a string. -/
def strDropRight (s : String) (n : Nat) : String :=
  String.mk (s.data.take (s.data.length - n))

/-- Tests whether the string contains the character `c`. -/
def strContainsChar (s : String) (c : Char) : Bool :=
  s.data.any (fun x => x = c)

/-- Splits a char list at every occurrence of `sep`, like Go strings.Split
with a one-character separator.  Always returns a non-empty list. -/
def splitCharAux (sep : Char) (acc : List Char) : List Char → List (List Char)
  | [] => [acc.reverse]
  | c :: cs =>
    if c = sep then acc.reverse :: splitCharAux sep [] cs
    else splitCharAux sep (c :: acc) cs

/-- Go strings.Split on a single-character separator, over char lists. -/
def splitCharList (sep : Char) (cs : List Char) : List (List Char) :=
  splitCharAux sep [] cs

/-- Go strings.Split on a single-character separator, over strings. -/
def splitChar (sep : Char) (s : String) : List String :=
  (splitCharList sep s.data).map (fun l => String.mk l)

/-- Go strings.TrimSuffix: drops `suf` from the end of `s` when present. -/
def goTrimSuffix (s suf : String) : String :=
  if strEndsWith s suf then strDropRight s suf.length else s

/-- Value of a decimal digit character, if the whole list is nonempty digits. -/
def digitsToNatAux (acc : Nat) : List Char → Option Nat
  | [] => some acc
  | c :: cs =>
    if c.isDigit then digitsToNatAux (acc * 10 + (c.toNat - 48)) cs
    else none

/-- Parses a nonempty all-digit char list as a Nat; none otherwise. -/
def digitsToNat : List Char → Option Nat
  | [] => none
  | cs => digitsToNatAux 0 cs

/-- Go math/big Int.SetString with base 10: optional sign, then nonempty
decimal digits. -/
def goBigIntDec10 : List Char → Option Int
  | '+' :: cs => (digitsToNat cs).map (fun n => (n : Int))
  | '-' :: cs => (digitsToNat cs).map (fun n => -(n : Int))
  | cs => (digitsToNat cs).map (fun n => (n : Int))

/-- Go strconv.ParseInt(s, 10, 32): optional sign, nonempty digits, and the
result must fit in a signed 32-bit integer. -/
def goParseInt32 (cs : List Char) : Option Int :=
  let p : Bool × List Char :=
    match cs with
    | '+' :: rest => (false, rest)
    | '-' :: rest => (true, rest)
    | rest => (false, rest)
  match digitsToNat p.2 with
  | none => none
  | some n =>
    let v : Int := if p.1 then -(n : Int) else (n : Int)
    if -(2 ^ 31) ≤ v ∧ v ≤ 2 ^ 31 - 1 then some v else none

/-! ## The shopspring decimal model

The repository pins github.com/shopspring/decimal at cd690d0c9e24.  A
decimal is a big-integer coefficient together with a base-10 exponent;
`NewFromString` splits off an optional `e`/`E` exponent suffix, then splits
the mantissa at the decimal point. -/

/-- A shopspring decimal: coefficient `value` and base-10 exponent `exp`
(the represented number is value * 10 ^ exp). -/
structure GoDecimal where
  value : Int
  exp : Int
deriving DecidableEq, Repr

/-- Splits a char list at the first 'e' or 'E' (Go strings.IndexAny with
"Ee"): returns the part before and the part after, if any is found. -/
def splitFirstEAux : List Char → Option (List Char × List Char)
  | [] => none
  | c :: cs =>
    if c = 'e' ∨ c = 'E' then some ([], cs)
    else (splitFirstEAux cs).map (fun p => (c :: p.1, p.2))

/-- Bounds check that shopspring NewFromString applies to the final
exponent (it must fit in an int32). -/
def mkGoDecimal (v : Int) (e : Int) : Option GoDecimal :=
  if -(2 ^ 31) ≤ e ∧ e ≤ 2 ^ 31 - 1 then some ⟨v, e⟩ else none

/-- Mantissa handling of NewFromString: split the mantissa at the decimal
point, parse the concatenated digit strings in base 10, and subtract the
fractional length from the running exponent e0. -/
def decFromParts (mant : List Char) (e0 : Int) : Option GoDecimal :=
  match splitCharList '.' mant with
  | [ip] => (goBigIntDec10 ip).bind (fun v => mkGoDecimal v e0)
  | [ip, fp] =>
    (goBigIntDec10 (ip ++ fp)).bind
      (fun v => mkGoDecimal v (e0 - (fp.length : Int)))
  | _ => none

/-- shopspring decimal.NewFromString: an optional scientific-notation
suffix is parsed first (failure is an error); the remaining mantissa is
handled by decFromParts. -/
def goNewFromString (s : String) : Option GoDecimal :=
  match splitFirstEAux s.data with
  | none => decFromParts s.data 0
  | some me =>
    match goParseInt32 me.2 with
    | none => none
    | some e => decFromParts me.1 e

/-! ## The uint256 converter: parseToAtto, truncateDecimal, toDisplay -/

/-- truncateDecimal truncates a decimal to an integer: for a nonnegative
exponent it is coeff * 10 ^ exp; for a negative exponent it is Go
big.Int.Div of coeff by 10 ^ -exp, which is Euclidean division (floor, for
the positive divisor used here). -/
def truncateDecimal (d : GoDecimal) : Int :=
  if 0 ≤ d.exp then d.value * (10 : Int) ^ d.exp.toNat
  else Int.ediv d.value ((10 : Int) ^ (-d.exp).toNat)

/-- Two's-complement wraparound into the int32 range, as Go int32
addition behaves. -/
def wrapInt32 (x : Int) : Int :=
  (x + 2 ^ 31) % 2 ^ 32 - 2 ^ 31

/-- parseToAtto reads a decimal-formatted number of tokens and returns that
number times 1e18 (unscaled when the "int:" marker is present); parse
failure is a fatal error, modelled as none.  Decimal.Shift adds the shift
to the decimal's int32 exponent, so the addition wraps around at the int32
boundary. -/
def parseToAtto (s : String) : Option Int :=
  let p : String × Int :=
    if strStartsWith s "int:" then (strDrop s 4, 0) else (s, 18)
  match goNewFromString p.1 with
  | none => none
  | some d => some (truncateDecimal ⟨d.value, wrapInt32 (d.exp + p.2)⟩)

/-- toDisplay does not modify the atto amount: it renders the raw integer
(decimal.NewFromBigInt(i, 0).String() is the plain decimal rendering). -/
def toDisplay (i : Int) : String :=
  toString i

/-- Normalization of trailing zeros, following the spec's words: strip
trailing fractional zeros (and a then-dangling decimal point); strings
without a decimal point are unchanged. -/
def normTrailingZeros (s : String) : String :=
  if strContainsChar s '.' then
    let s1 := String.mk ((s.data.reverse.dropWhile (fun c => c = '0')).reverse)
    if strEndsWith s1 "." then strDropRight s1 1 else s1
  else s

/-- Claim C1, counterexample: the registry's uint256 rendering displays the
raw atto integer, so format(parse("7")) is "7000000000000000000", which is
not "7" even after normalizing trailing zeros (neither string has a
fractional part, so normalization leaves both unchanged). -/
theorem uint256_roundtrip_counterexample :
    (parseToAtto "7").map toDisplay = some "7000000000000000000" ∧
    normTrailingZeros "7000000000000000000" ≠ normTrailingZeros "7" := by
  decide

/-- Helper: the int32 wraparound is the identity inside the int32 range. -/
theorem wrapInt32_eq_self (x : Int) (h1 : -(2 ^ 31) ≤ x)
    (h2 : x ≤ 2 ^ 31 - 1) : wrapInt32 x = x := by
  unfold wrapInt32
  omega

/-- Claim C1, amended: for every decimal string d (without the "int:"
marker) parsing to coefficient v and exponent e with at most 18 fractional
digits (-18 ≤ e) and a scaled exponent still in int32 range
(e ≤ 2^31 - 19, automatic for plain decimal notation, where e ≤ 0),
formatting the parsed uint256 value renders the exact atto-scaled integer
v * 10 ^ (e + 18) — the atto amount itself, not the original decimal
string. -/
theorem uint256_format_parse_atto (s : String) (d : GoDecimal)
    (h1 : goNewFromString s = some d)
    (h2 : strStartsWith s "int:" = false)
    (h3 : -18 ≤ d.exp)
    (h4 : d.exp ≤ 2 ^ 31 - 19) :
    (parseToAtto s).map toDisplay =
      some (toDisplay (d.value * 10 ^ (d.exp + 18).toNat)) := by
  unfold parseToAtto
  simp only [h2, Bool.false_eq_true, if_false, h1]
  rw [wrapInt32_eq_self (d.exp + 18) (by omega) (by omega)]
  unfold truncateDecimal
  simp only
  rw [if_pos (by omega)]
  simp [Option.map]

/-- Witness for uint256_format_parse_atto at d = "1.5". -/
theorem uint256_format_parse_atto_witness :
    (parseToAtto "1.5").map toDisplay =
      some (toDisplay ((15 : Int) * 10 ^ (((-1 : Int) + 18)).toNat)) :=
  uint256_format_parse_atto "1.5" ⟨15, -1⟩ (by decide) (by decide) (by decide)
    (by decide)

/-- Documentation assembly from mainErr: Short is the developer detail,
falling back to the first period-delimited clause of the first line of the
user notice; Long starts from the user notice and, when the developer
detail is nonempty, appends a blank-line separator (if the notice was
nonempty) followed by the detail. -/
def synthShortLong (dev user : String) : String × String :=
  let short0 := dev
  let short :=
    if short0 = "" then
      (splitChar '.' ((splitChar '\n' user).headD "")).headD ""
    else short0
  let long0 := user
  let long :=
    if dev ≠ "" then
      (if long0 ≠ "" then long0 ++ "\n\n" else long0) ++ dev
    else long0
  (short, long)

/-- Claim C3, counterexample: with developer detail "D" and user notice
"U", the synthesized long documentation is "U\n\nD" — user notice first —
not the detail-first concatenation "D\n\nU" the claim states. -/
theorem synthLong_order_counterexample :
    (synthShortLong "D" "U").2 = "U" ++ "\n\n" ++ "D" ∧
    (synthShortLong "D" "U").2 ≠ "D" ++ "\n\n" ++ "U" := by
  constructor
  · rfl
  · decide

/-- Claim C3, amended: for every method whose developer detail and user
notice are both nonempty, the synthesized long documentation is the
concatenation with the user notice first, then a blank line, then the
developer detail. -/
theorem synthLong_both_nonempty (dev user : String)
    (hdev : dev ≠ "") (huser : user ≠ "") :
    (synthShortLong dev user).2 = user ++ "\n\n" ++ dev := by
  simp [synthShortLong, hdev, huser]

/-- Witness for synthLong_both_nonempty at dev = "D", user = "U". -/
theorem synthLong_both_nonempty_witness :
    (synthShortLong "D" "U").2 = "U" ++ "\n\n" ++ "D" :=
  synthLong_both_nonempty "D" "U" (by decide) (by decide)

/-! ## Build cache: the get-or-build closure (main.go 228-282)

Each I/O or codec step of the closure is modelled by an oracle field of a
world record: reading the source, locating and reading the cache file, gob
decoding, invoking abigen, creating the cache file, gob encoding, and
writing.  The outcome records whether the external compiler was invoked
and whether the result came from the cache, was freshly built, or was a
fatal error. -/

/-- Model of the cacheObject persisted by the build cache: the ABI JSON,
the two documentation maps, the contract name, the bytecode, and the
content hash of the source. -/
structure CacheObj where
  abi : String
  devDoc : List (String × String)
  userDoc : List (String × String)
  name : String
  bytecode : List Nat
  hash : List Nat
deriving DecidableEq, Repr

/-- World record for one run of the get-or-build closure.  Option fields
are none exactly when the corresponding Go step returned an error. -/
structure CacheWorld where
  sourceBytes : Option (List Nat)
  hashOf : List Nat → List Nat
  cacheFilePath : Option String
  cacheBytes : Option (List Nat)
  decodeResult : Option CacheObj
  compileResult : Option CacheObj
  ensurePath : Option String
  encodeOk : Bool
  writeOk : Bool

/-- Result of the closure: a cached object, a freshly built object, or a
fatal error (the closure returned a non-nil error to mainErr). -/
inductive CacheStep
  | cached (o : CacheObj)
  | fresh (o : CacheObj)
  | fatal (msg : String)
deriving DecidableEq, Repr

/-- Outcome of the closure together with whether abigen (the external
compiler) was invoked during the run. -/
structure CacheOutcome where
  compilerInvoked : Bool
  step : CacheStep
deriving DecidableEq, Repr

/-- Rebuild path of the closure: invoke abigen, attach the fresh hash,
create the cache file, gob-encode, and write; every failing step returns
a fatal error (so a persistence failure discards the fresh result). -/
def rebuildPath (w : CacheWorld) (buildHash : List Nat) : CacheOutcome :=
  match w.compileResult with
  | none => ⟨true, .fatal "generating Go bindings to solidity ABI"⟩
  | some obj =>
    let obj2 := { obj with hash := buildHash }
    match w.ensurePath with
    | none => ⟨true, .fatal "creating cache file"⟩
    | some _ =>
      if w.encodeOk then
        if w.writeOk then ⟨true, .fresh obj2⟩
        else ⟨true, .fatal "writing build output to cache"⟩
      else ⟨true, .fatal "serializing build output to cache"⟩

/-- Control flow of the get-or-build closure: hash the source; if the
cache file exists, read and decode it (each failure is fatal) and return
the cached object on hash match; otherwise rebuild. -/
def getOrBuild (w : CacheWorld) : CacheOutcome :=
  match w.sourceBytes with
  | none => ⟨false, .fatal "reading source file"⟩
  | some src =>
    let buildHash := w.hashOf src
    match w.cacheFilePath with
    | none => rebuildPath w buildHash
    | some _ =>
      match w.cacheBytes with
      | none => ⟨false, .fatal "reading cached build output"⟩
      | some _ =>
        match w.decodeResult with
        | none => ⟨false, .fatal "decoding cached build output"⟩
        | some obj =>
          if obj.hash = buildHash then ⟨false, .cached obj⟩
          else rebuildPath w buildHash

/-- Sample cache object used in concrete worlds. -/
def sampleObj : CacheObj :=
  ⟨"[]", [], [], "Token", [1, 2], []⟩

/-- Concrete world in which the cache file exists but gob decoding fails,
while compilation and persistence would succeed. -/
def decodeFailWorld : CacheWorld where
  sourceBytes := some [7]
  hashOf := fun b => b
  cacheFilePath := some "cachefile"
  cacheBytes := some [0]
  decodeResult := none
  compileResult := some sampleObj
  ensurePath := some "cachefile"
  encodeOk := true
  writeOk := true

/-- Claim C4, counterexample: when the cached file fails to deserialize,
the closure returns the decode error without ever invoking the external
compiler — it does not rebuild and return a fresh InterfaceDescription as
the claim states. -/
theorem getOrBuild_decode_failure_counterexample :
    getOrBuild decodeFailWorld =
      ⟨false, .fatal "decoding cached build output"⟩ := by
  decide

/-- Claim C4, amended: on a cache-file lookup miss or a hash mismatch of a
successfully decoded cache entry, the closure invokes the compiler,
attaches the freshly computed hash, and persists the result; the fresh
object is returned only when persistence succeeds — a write failure is a
fatal error that discards it.  Read or deserialization failures of an
existing cache file are fatal and do not trigger a rebuild at all. -/
theorem getOrBuild_rebuild_behavior (w : CacheWorld) (src : List Nat)
    (obj : CacheObj) (p : String)
    (hsrc : w.sourceBytes = some src)
    (hmiss : w.cacheFilePath = none ∨
      ∃ cb co, w.cacheBytes = some cb ∧ w.decodeResult = some co ∧
        co.hash ≠ w.hashOf src)
    (hcomp : w.compileResult = some obj)
    (hens : w.ensurePath = some p)
    (henc : w.encodeOk = true) :
    getOrBuild w =
      ⟨true,
        if w.writeOk then CacheStep.fresh { obj with hash := w.hashOf src }
        else CacheStep.fatal "writing build output to cache"⟩ := by
  have hre : rebuildPath w (w.hashOf src) =
      ⟨true,
        if w.writeOk then CacheStep.fresh { obj with hash := w.hashOf src }
        else CacheStep.fatal "writing build output to cache"⟩ := by
    unfold rebuildPath
    rw [hcomp, hens]
    simp only [henc, if_true]
    cases hw : w.writeOk <;> simp [hw]
  unfold getOrBuild
  rw [hsrc]
  rcases hmiss with hnone | ⟨cb, co, hcb, hco, hne⟩
  · rw [hnone]
    exact hre
  · cases hcf : w.cacheFilePath with
    | none => exact hre
    | some c =>
      simp only
      rw [hcb, hco]
      simp only
      rw [if_neg hne]
      exact hre

/-- Witness for getOrBuild_rebuild_behavior: a cache miss (no cache file)
with successful compilation and persistence. -/
theorem getOrBuild_rebuild_behavior_witness :
    getOrBuild
      { sourceBytes := some [7], hashOf := fun b => b,
        cacheFilePath := none, cacheBytes := none, decodeResult := none,
        compileResult := some sampleObj, ensurePath := some "cachefile",
        encodeOk := true, writeOk := true } =
      ⟨true,
        if true then CacheStep.fresh { sampleObj with hash := [7] }
        else CacheStep.fatal "writing build output to cache"⟩ :=
  getOrBuild_rebuild_behavior _ [7] sampleObj "cachefile" rfl (Or.inl rfl)
    rfl rfl rfl

/-! ## Interface normalization: contract selection in abigen (main.go 465-501)

The compiler output maps "file:contract" keys to per-contract outputs.
The selection block picks the entries whose key's file part equals the
solFile argument as given and whose contract part equals the match name
(the -c flag, or the .sol basename when the flag is empty). -/

/-- Per-contract compiler output fields decoded from solc's combined
JSON. -/
structure CompilerOutput where
  abi : String
  bin : String
  userDoc : String
  devDoc : String
deriving DecidableEq, Repr

/-- Match name used by abigen: the -c contract name, or, when it is empty,
the last path component of the solFile with a ".sol" suffix removed. -/
def goMatchName (contractName solFile : String) : String :=
  if contractName = "" then
    goTrimSuffix ((splitChar '/' solFile).getLastD "") ".sol"
  else contractName

/-- Key match performed inside the selection loop: the key is split at
":"; its first part must equal solFile exactly as given and its second
part must equal the match name.  (solc keys always contain a colon; a
colonless key would make the Go code panic and is modelled as no match.) -/
def keyMatchesCode (key solFile matchN : String) : Bool :=
  match splitChar ':' key with
  | p0 :: p1 :: _ => p0 = solFile ∧ p1 = matchN
  | _ => false

/-- Selection loop of abigen: appends the output of every entry whose key
matches. -/
def selectLoop (solFile matchN : String) :
    List (String × CompilerOutput) → List CompilerOutput
  | [] => []
  | kv :: rest =>
    if keyMatchesCode kv.1 solFile matchN then
      kv.2 :: selectLoop solFile matchN rest
    else selectLoop solFile matchN rest

/-- Outcome of the contract-selection block: a fatal zero-match error
(with the default-naming hint when the -c flag was empty), a fatal
ambiguity error, or the selected unique output. -/
inductive AbigenChoice
  | fatalNoMatchDefaulted (matchN solFile : String)
  | fatalNoMatchNamed (contractName solFile : String)
  | fatalAmbiguous (count : Nat)
  | selected (o : CompilerOutput)
deriving DecidableEq, Repr

/-- Contract-selection block of abigen: zero matches and multiple matches
are fatal; otherwise the unique matching output is selected. -/
def chooseContract (contracts : List (String × CompilerOutput))
    (solFile contractName : String) : AbigenChoice :=
  let matchN := goMatchName contractName solFile
  let outs := selectLoop solFile matchN contracts
  if outs.length = 0 then
    if contractName = "" then .fatalNoMatchDefaulted matchN solFile
    else .fatalNoMatchNamed contractName solFile
  else if outs.length > 1 then .fatalAmbiguous outs.length
  else .selected (outs.headD ⟨"", "", "", ""⟩)

/-- Spec-side matcher, following the spec's words for comparison: the file
part of the key is compared against the basename of the source file
ignoring its extension (rather than against the full path as given). -/
def keyMatchesSpec (key solFile target : String) : Bool :=
  let base := (splitChar '/' solFile).getLastD ""
  let baseNoExt := (splitChar '.' base).headD ""
  match splitChar ':' key with
  | p0 :: p1 :: _ => p0 = baseNoExt ∧ p1 = target
  | _ => false

/-- Claim C5, counterexample: with compiler output keyed "Token:Token" for
source path "sub/Token.sol" and a defaulted contract name, exactly one
entry matches under the claim's basename-ignoring-extension rule, yet the
code compares the file part against the full path "sub/Token.sol", finds
zero matches, and fails fatally instead of returning the interface. -/
theorem chooseContract_basename_counterexample :
    keyMatchesSpec "Token:Token" "sub/Token.sol" "Token" = true ∧
    keyMatchesCode "Token:Token" "sub/Token.sol" "Token" = false ∧
    chooseContract [("Token:Token", ⟨"[]", "", "{}", "{}"⟩)]
        "sub/Token.sol" "" =
      .fatalNoMatchDefaulted "Token" "sub/Token.sol" := by
  decide

/-- Helper: the selection loop is the filter of the matching entries. -/
theorem selectLoop_eq_filter (solFile matchN : String)
    (cs : List (String × CompilerOutput)) :
    selectLoop solFile matchN cs =
      (cs.filter (fun kv => keyMatchesCode kv.1 solFile matchN)).map
        Prod.snd := by
  induction cs with
  | nil => rfl
  | cons kv rest ih =>
    unfold selectLoop
    cases h : keyMatchesCode kv.1 solFile matchN <;>
      simp [List.filter, h, ih]

/-- Claim C5, amended: selection succeeds with output o exactly when the
entries whose key has file part equal to the source path as given (not its
basename) and contract part equal to the match name are exactly [o]; with
zero matches it fails fatally (with the default-naming hint when the name
was defaulted), and with two or more matches it fails fatally with the
ambiguity error — in the failure cases no output is selected. -/
theorem chooseContract_unique_match (cs : List (String × CompilerOutput))
    (solFile contractName : String) :
    (∀ o, chooseContract cs solFile contractName = .selected o ↔
      (cs.filter (fun kv =>
        keyMatchesCode kv.1 solFile
          (goMatchName contractName solFile))).map Prod.snd = [o]) ∧
    ((cs.filter (fun kv =>
        keyMatchesCode kv.1 solFile
          (goMatchName contractName solFile))).map Prod.snd = [] →
      chooseContract cs solFile contractName =
        if contractName = "" then
          .fatalNoMatchDefaulted (goMatchName contractName solFile) solFile
        else .fatalNoMatchNamed contractName solFile) ∧
    (∀ o1 o2 rest, (cs.filter (fun kv =>
        keyMatchesCode kv.1 solFile
          (goMatchName contractName solFile))).map Prod.snd =
          o1 :: o2 :: rest →
      chooseContract cs solFile contractName =
        .fatalAmbiguous (rest.length + 2)) := by
  have hsel := selectLoop_eq_filter solFile
    (goMatchName contractName solFile) cs
  refine ⟨fun o => ?_, fun hz => ?_, fun o1 o2 rest hm => ?_⟩
  · simp only [chooseContract]
    rw [hsel]
    generalize (cs.filter (fun kv =>
        keyMatchesCode kv.1 solFile
          (goMatchName contractName solFile))).map Prod.snd = L
    cases L with
    | nil =>
      rw [if_pos (show ([] : List CompilerOutput).length = 0 from rfl)]
      split <;> simp
    | cons a tl =>
      cases tl with
      | nil => simp
      | cons b tl2 => simp
  · simp only [chooseContract]
    rw [hsel, hz]
    simp
  · simp only [chooseContract]
    rw [hsel, hm]
    simp only [List.length_cons]
    rw [if_neg (by omega), if_pos (by omega)]

/-- Witness for chooseContract_unique_match: a single exactly-matching
entry is selected. -/
theorem chooseContract_unique_match_witness :
    chooseContract [("Token.sol:Token", ⟨"[]", "", "{}", "{}"⟩)]
        "Token.sol" "" = .selected ⟨"[]", "", "{}", "{}"⟩ :=
  ((chooseContract_unique_match [("Token.sol:Token", ⟨"[]", "", "{}", "{}"⟩)]
    "Token.sol" "").1 ⟨"[]", "", "{}", "{}"⟩).mpr (by decide)

/-! ## Keys, addresses and the default-key environment (part_003 28-39,
229-296)

The process environment is modelled as a total function from variable
names to values, with "" meaning unset (Go os.Getenv).  The init function
seeds POKE_0 .. POKE_9 with the ten default keys unless already set.
Hex decoding follows Go encoding/hex: on malformed input it returns the
bytes decoded before the error together with the error.  crypto.ToECDSA
accepts exactly 32 bytes whose big-endian value is in (0, N) for the
secp256k1 group order N.  Elliptic-curve address derivation
(crypto.PubkeyToAddress) is an external deterministic function, modelled
by the opaque constructor GoAddr.ofKey. -/

/-- Process environment: total map from variable names to values, where
the empty string means the variable is unset. -/
def Env : Type := String → String

/-- Go os.Setenv as a functional update. -/
def setenv (e : Env) (k v : String) : Env :=
  fun n => if n = k then v else e n

/-- The ten default private keys of the 0x mnemonic, from part_003. -/
def defaultKeys : List String :=
  ["f2f48ee19680706196e2e339e5da3491186e0c4c5030670656b0e0164837257d",
   "5d862464fe9303452126c8bc94274b8c5f9874cbd219789b3eb2128075a76f72",
   "df02719c4df8b9b8ac7f551fcb5d9ef48fa27eef7a66453879f4d8fdc6e78fb1",
   "ff12e391b79415e941a94de3bf3a9aee577aed0731e297d5cfa0b8a1e02fa1d0",
   "752dd9cf65e68cfaba7d60225cbdbc1f4729dd5e5507def72815ed0d8abc6249",
   "efb595a0178eb79a8df953f87c5148402a224cdf725e88c0146727c6aceadccd",
   "83c6d2cc5ddcf9711a6d59b417dc20eb48afd58d45290099e5987e3d768f328f",
   "bb2d3f7c9583780a7d3904a2f55d792707c345f21de1bacb2d389934d82796b2",
   "b2fd4d29c1390b71b8795ae81196bfd60293adf99f9d32a0aff06288fcdac55f",
   "23cb7121166b9a2f93ae0b7c05bde02eae50d64449b2cbb42bc84e9d38d6cc89"]

/-- One iteration of the init loop: seed POKE_i with the i-th default key
when the variable is unset. -/
def initStep (e : Env) (i : Nat) (key : String) : Env :=
  if e ("POKE_" ++ toString i) = "" then
    setenv e ("POKE_" ++ toString i) key
  else e

/-- Loop of the init function: one initStep per key, with the running
index. -/
def initLoop (e : Env) : Nat → List String → Env
  | _, [] => e
  | i, k :: rest => initLoop (initStep e i k) (i + 1) rest

/-- The init function of part_003: seeds POKE_0 .. POKE_9. -/
def initEnvDefaults (env : Env) : Env :=
  initLoop env 0 defaultKeys

/-- Value of a hexadecimal digit character (Go encoding/hex fromHexChar). -/
def hexCharVal (c : Char) : Option Nat :=
  if '0' ≤ c ∧ c ≤ '9' then some (c.toNat - 48)
  else if 'a' ≤ c ∧ c ≤ 'f' then some (c.toNat - 87)
  else if 'A' ≤ c ∧ c ≤ 'F' then some (c.toNat - 55)
  else none

/-- Go encoding/hex Decode over a char list: decodes pairs of hex digits
into bytes; on an invalid character or odd length it stops, returning the
bytes decoded so far and false. -/
def goHexDecodeAux : List Char → List Nat × Bool
  | [] => ([], true)
  | [_] => ([], false)
  | a :: b :: rest =>
    match hexCharVal a, hexCharVal b with
    | some x, some y =>
      let p := goHexDecodeAux rest
      ((16 * x + y) :: p.1, p.2)
    | _, _ => ([], false)

/-- Go hex.DecodeString: the decoded bytes (possibly a partial prefix) and
whether decoding succeeded. -/
def goHexDecode (s : String) : List Nat × Bool :=
  goHexDecodeAux s.data

/-- Order of the secp256k1 group
(0xFFFFFFFFFFFFFFFFFFFFFFFFFFFFFFFEBAAEDCE6AF48A03BBFD25E8CD0364141). -/
def secp256k1N : Nat :=
  115792089237316195423570985008687907852837564279074904382605163141518161494337

/-- Big-endian byte-list value. -/
def beNat (bs : List Nat) : Nat :=
  bs.foldl (fun a b => a * 256 + b) 0

/-- go-ethereum crypto.ToECDSA in strict mode: exactly 32 bytes whose
big-endian value d satisfies 0 < d < secp256k1N; nil (none) otherwise. -/
def toECDSA (bs : List Nat) : Option Nat :=
  if bs.length = 32 then
    let d := beNat bs
    if d = 0 ∨ secp256k1N ≤ d then none else some d
  else none

/-- Messages parseKey can print to stderr. -/
inductive KeyMsg
  | emptyVarMsg
  | parseFailMsg
  | atExpansionMsg
deriving DecidableEq, Repr

/-- Observable outcome of parseKey: the stderr messages, whether the
process terminated fatally, and the returned key (none models a nil
*ecdsa.PrivateKey). -/
structure KeyOut where
  msgs : List KeyMsg
  fatalExit : Bool
  key : Option Nat
deriving DecidableEq, Repr

/-- Tail of parseKey after the @-indirection: hex-decode (keeping partial
bytes on error, as Go does), run ToECDSA on whatever bytes were decoded,
print a failure message when either step errored, terminate only when the
original argument was @-prefixed, and otherwise return the ToECDSA result
as is. -/
def parseKeyTail (origS s : String) : KeyOut :=
  let dec := goHexDecode s
  let key := toECDSA dec.1
  if dec.2 = false ∨ key = none then
    if strStartsWith origS "@" then
      ⟨[.parseFailMsg, .atExpansionMsg], true, none⟩
    else ⟨[.parseFailMsg], false, key⟩
  else ⟨[], false, key⟩

/-- parseKey of part_003: an @-prefixed argument is expanded through the
POKE_<suffix> environment variable; the guard for an empty variable tests
the unmodified input s (not the environment value), and then the expanded
string is parsed as a hex private key. -/
def parseKeyM (env : Env) (s : String) : KeyOut :=
  if strStartsWith s "@" then
    let e := env ("POKE_" ++ strDrop s 1)
    if s = "" then ⟨[.emptyVarMsg], true, none⟩
    else parseKeyTail s e
  else parseKeyTail s s

/-- Protocol address: either literal bytes parsed from hex, or the address
deterministically derived from a private key (crypto.PubkeyToAddress,
modelled as an opaque constructor of the key value). -/
inductive GoAddr
  | bytes (bs : List Nat)
  | ofKey (d : Nat)
deriving DecidableEq, Repr

/-- Failure modes of address parsing. -/
inductive AddrErr
  | invalidHex
  | badLength
  | keyFatal
deriving DecidableEq, Repr

/-- Outcome of address parsing: an address, a fatal exit, or a nil-pointer
panic (dereferencing a nil key in toAddress). -/
inductive AddrOut
  | ok (a : GoAddr)
  | fatalExit (e : AddrErr)
  | panicNilKey
deriving DecidableEq, Repr

/-- hexToAddress of part_003: strips an optional 0x, hex-decodes (any
decode error is fatal), and requires exactly 20 bytes. -/
def hexToAddressM (s : String) : AddrOut :=
  let t := if strStartsWith s "0x" then strDrop s 2 else s
  let dec := goHexDecode t
  if dec.2 = false then .fatalExit .invalidHex
  else if dec.1.length ≠ 20 then .fatalExit .badLength
  else .ok (.bytes dec.1)

/-- parseAddress of part_003: an @-prefixed argument derives the address
of the key named by the environment variable; anything else is parsed as a
literal hex address. -/
def parseAddressM (env : Env) (s : String) : AddrOut :=
  if strStartsWith s "@" then
    let k := parseKeyM env s
    if k.fatalExit then .fatalExit .keyFatal
    else
      match k.key with
      | none => .panicNilKey
      | some d => .ok (.ofKey d)
  else hexToAddressM s

/-- Helper: an initStep for index i does not change variables other than
POKE_i. -/
theorem initStep_other (e : Env) (i : Nat) (k n : String)
    (h : n ≠ "POKE_" ++ toString i) : initStep e i k n = e n := by
  unfold initStep
  split
  · simp [setenv, h]
  · rfl

/-- Helper: an initStep for index i sets POKE_i when it was unset. -/
theorem initStep_sets (e : Env) (i : Nat) (k : String)
    (h : e ("POKE_" ++ toString i) = "") :
    initStep e i k ("POKE_" ++ toString i) = k := by
  unfold initStep
  rw [if_pos h]
  simp [setenv]

/-- Helper: after init, POKE_3 holds the 4th default key whenever the
variable was initially unset. -/
theorem initEnvDefaults_poke3 (env0 : Env) (h : env0 "POKE_3" = "") :
    initEnvDefaults env0 "POKE_3" =
      "ff12e391b79415e941a94de3bf3a9aee577aed0731e297d5cfa0b8a1e02fa1d0" := by
  have hpre :
      (initStep (initStep (initStep env0
          0 "f2f48ee19680706196e2e339e5da3491186e0c4c5030670656b0e0164837257d")
          1 "5d862464fe9303452126c8bc94274b8c5f9874cbd219789b3eb2128075a76f72")
          2 "df02719c4df8b9b8ac7f551fcb5d9ef48fa27eef7a66453879f4d8fdc6e78fb1")
        "POKE_3" = "" := by
    rw [initStep_other _ _ _ _ (by decide), initStep_other _ _ _ _ (by decide),
      initStep_other _ _ _ _ (by decide)]
    exact h
  simp only [initEnvDefaults, defaultKeys, initLoop, Nat.reduceAdd]
  rw [initStep_other _ _ _ _ (by decide), initStep_other _ _ _ _ (by decide),
    initStep_other _ _ _ _ (by decide), initStep_other _ _ _ _ (by decide),
    initStep_other _ _ _ _ (by decide), initStep_other _ _ _ _ (by decide)]
  exact initStep_sets _ 3 _ hpre

/-- Claim C8: parsing the address-typed argument "@3" after init (in a
process whose environment did not override POKE_3) yields the address
derived from the 4th default key (index 3), and repeated parses within the
same run yield the identical address — the parse consults only the
environment, which init set once. -/
theorem parseAddress_at3_default (env0 : Env) (h : env0 "POKE_3" = "") :
    parseAddressM (initEnvDefaults env0) "@3" =
      .ok (.ofKey (beNat (goHexDecode (defaultKeys.getD 3 "")).1)) ∧
    parseAddressM (initEnvDefaults env0) "@3" =
      parseAddressM (initEnvDefaults env0) "@3" := by
  have hk : (initEnvDefaults env0) ("POKE_" ++ strDrop "@3" 1) =
      "ff12e391b79415e941a94de3bf3a9aee577aed0731e297d5cfa0b8a1e02fa1d0" := by
    rw [show ("POKE_" ++ strDrop "@3" 1) = "POKE_3" from rfl,
      initEnvDefaults_poke3 env0 h]
  have hkey : parseKeyM (initEnvDefaults env0) "@3" =
      parseKeyTail "@3"
        "ff12e391b79415e941a94de3bf3a9aee577aed0731e297d5cfa0b8a1e02fa1d0" := by
    simp only [parseKeyM, show strStartsWith "@3" "@" = true from rfl,
      if_true, show (("@3" : String) = "") = False from by simp, if_false, hk]
  refine ⟨?_, rfl⟩
  simp only [parseAddressM, show strStartsWith "@3" "@" = true from rfl,
    if_true, hkey]
  decide

/-- Witness for parseAddress_at3_default in the empty environment. -/
theorem parseAddress_at3_default_witness :
    parseAddressM (initEnvDefaults (fun _ => "")) "@3" =
      .ok (.ofKey (beNat (goHexDecode (defaultKeys.getD 3 "")).1)) ∧
    parseAddressM (initEnvDefaults (fun _ => "")) "@3" =
      parseAddressM (initEnvDefaults (fun _ => "")) "@3" :=
  parseAddress_at3_default (fun _ => "") rfl

/-- Claim C9, counterexample: the 65-character string formed by appending
"0" to the first default key is not a valid hex encoding (odd length), so
parseKey prints the parse-failure message and does not terminate — but it
returns a non-nil key, because Go hex.DecodeString hands back the 32 bytes
decoded before the error and ToECDSA accepts them. -/
theorem parseKey_malformed_nonnil_counterexample :
    (goHexDecode
      "f2f48ee19680706196e2e339e5da3491186e0c4c5030670656b0e0164837257d0").2
        = false ∧
    (parseKeyM (fun _ => "")
      "f2f48ee19680706196e2e339e5da3491186e0c4c5030670656b0e0164837257d0").msgs
        = [KeyMsg.parseFailMsg] ∧
    (parseKeyM (fun _ => "")
      "f2f48ee19680706196e2e339e5da3491186e0c4c5030670656b0e0164837257d0").fatalExit
        = false ∧
    (parseKeyM (fun _ => "")
      "f2f48ee19680706196e2e339e5da3491186e0c4c5030670656b0e0164837257d0").key.isSome
        = true := by
  decide

/-- Helper: a string with the "@" character in front is nonempty. -/
theorem strStartsWith_at_ne_empty (s : String)
    (h : strStartsWith s "@" = true) : s ≠ "" := by
  intro he
  rw [he] at h
  exact absurd h (by decide)

/-- Claim C9, amended: for every `from` value that does not begin with "@"
and fails hex decoding or ToECDSA, parseKey prints the parse-failure
message, does not terminate, and returns the ToECDSA result of the
partially decoded bytes (a nil key unless the decoded prefix itself forms
a valid 32-byte key); only @-prefixed inputs can terminate the process;
and the dedicated empty-variable message is never printed, because the
guard tests the unmodified input rather than the environment value. -/
theorem parseKey_error_behavior (env : Env) (s : String) :
    (strStartsWith s "@" = false →
      ((goHexDecode s).2 = false ∨ toECDSA (goHexDecode s).1 = none) →
      parseKeyM env s =
        ⟨[KeyMsg.parseFailMsg], false, toECDSA (goHexDecode s).1⟩) ∧
    ((parseKeyM env s).fatalExit = true → strStartsWith s "@" = true) ∧
    KeyMsg.emptyVarMsg ∉ (parseKeyM env s).msgs := by
  refine ⟨?_, ?_, ?_⟩
  · intro hat herr
    have hout : parseKeyM env s = parseKeyTail s s := by
      simp only [parseKeyM, hat, Bool.false_eq_true, if_false]
    rw [hout]
    simp only [parseKeyTail]
    rw [if_pos herr, if_neg (by simp [hat])]
  · intro hfa
    by_cases hat : strStartsWith s "@" = true
    · exact hat
    · exfalso
      have hat2 : strStartsWith s "@" = false := by
        cases hb : strStartsWith s "@"
        · rfl
        · exact absurd hb hat
      have hout : parseKeyM env s = parseKeyTail s s := by
        simp only [parseKeyM, hat2, Bool.false_eq_true, if_false]
      rw [hout] at hfa
      simp only [parseKeyTail] at hfa
      revert hfa
      split_ifs <;> simp_all
  · by_cases hat : strStartsWith s "@" = true
    · have hs : ¬s = "" := strStartsWith_at_ne_empty s hat
      have hout : parseKeyM env s =
          parseKeyTail s (env ("POKE_" ++ strDrop s 1)) := by
        simp only [parseKeyM, hat, if_true, if_neg hs]
      rw [hout]
      simp only [parseKeyTail]
      split_ifs <;> simp
    · have hat2 : strStartsWith s "@" = false := by
        cases hb : strStartsWith s "@"
        · rfl
        · exact absurd hb hat
      have hout : parseKeyM env s = parseKeyTail s s := by
        simp only [parseKeyM, hat2, Bool.false_eq_true, if_false]
      rw [hout]
      simp only [parseKeyTail]
      split_ifs <;> simp

/-- Witness for parseKey_error_behavior: "zz" is not @-prefixed and fails
hex decoding, so parseKey prints the failure and returns nil without
terminating. -/
theorem parseKey_error_behavior_witness :
    parseKeyM (fun _ => "") "zz" =
      ⟨[KeyMsg.parseFailMsg], false, toECDSA (goHexDecode "zz").1⟩ :=
  (parseKey_error_behavior (fun _ => "") "zz").1 (by decide) (by decide)

/-! ## The method dispatch handler (main.go 335-363, part_003 210-223)

The synthesized command's Run handler first parses each argument with the
registry converter for the declared input type (a nil map entry means a
nil-function-call panic); for a constant method it then reads the first
declared output type (index out of range when there are no outputs),
allocates the decode target (again panicking on an unregistered type), and
only then calls getDeployment, which exits with code 1 when no contract
address is configured — before any node connection is created. -/

/-- Go strconv.ParseBool. -/
def goParseBool (s : String) : Option Bool :=
  if s = "1" ∨ s = "t" ∨ s = "T" ∨ s = "TRUE" ∨ s = "true" ∨ s = "True" then
    some true
  else if s = "0" ∨ s = "f" ∨ s = "F" ∨ s = "FALSE" ∨ s = "false" ∨
      s = "False" then
    some false
  else none

/-- Outcome of running one registry parser on one argument. -/
inductive ArgOutcome
  | parsed
  | argFatal
  | argPanicNil
deriving DecidableEq, Repr

/-- Registry keys of solTypes in main.go. -/
def registeredType (t : String) : Bool :=
  t == "address" || t == "uint256" || t == "bool" || t == "string"

/-- One iteration of the argument-parse loop: looks up the converter for
the declared type (a missing entry yields a nil parser, a panic when
called) and runs its parser, which exits the process on malformed input. -/
def runArg (env : Env) (ty arg : String) : ArgOutcome :=
  if ty = "address" then
    match parseAddressM env arg with
    | .ok _ => .parsed
    | .fatalExit _ => .argFatal
    | .panicNilKey => .argPanicNil
  else if ty = "uint256" then
    match parseToAtto arg with
    | some _ => .parsed
    | none => .argFatal
  else if ty = "bool" then
    match goParseBool arg with
    | some _ => .parsed
    | none => .argFatal
  else if ty = "string" then .parsed
  else .argPanicNil

/-- Outcome of the whole argument-parse loop. -/
inductive LoopOut
  | allParsed
  | loopFatal
  | loopPanicNil
  | loopPanicIndex
deriving DecidableEq, Repr

/-- Argument-parse loop of the Run handler: iterates over the invocation
arguments, indexing the declared input types (out of range if there are
more arguments than declared inputs), stopping at the first fatal parse
or panic. -/
def parseLoop (env : Env) : List String → List String → LoopOut
  | _, [] => .allParsed
  | [], _ :: _ => .loopPanicIndex
  | t :: ts, a :: rest =>
    match runArg env t a with
    | .parsed => parseLoop env ts rest
    | .argFatal => .loopFatal
    | .argPanicNil => .loopPanicNil

/-- An ABI method as the Run handler sees it: name, constness, and the
declared input and output type names. -/
structure SolMethod where
  name : String
  const : Bool
  inputTypes : List String
  outputTypes : List String
deriving DecidableEq, Repr

/-- Observable outcome of one invocation of a synthesized method command's
Run handler. -/
inductive RunOutcome
  | fatalParse
  | panicNilParse
  | panicInputIndex
  | panicOutputsEmpty
  | panicNilConverter
  | usageNoAddress
  | constCall (outType : String)
  | txnDispatch
deriving DecidableEq, Repr

/-- Run handler of a synthesized method command: parse all arguments; for
a constant method read Outputs[0] (panic when empty), allocate the decode
target via the registry (panic when the type is unregistered), then
getDeployment checks the configured address (usage exit 1 when empty,
before any node connection); the mutating branch evaluates
getDeployment first as well. -/
def runHandler (env : Env) (address : String) (m : SolMethod)
    (args : List String) : RunOutcome :=
  match parseLoop env m.inputTypes args with
  | .loopFatal => .fatalParse
  | .loopPanicNil => .panicNilParse
  | .loopPanicIndex => .panicInputIndex
  | .allParsed =>
    if m.const then
      match m.outputTypes with
      | [] => .panicOutputsEmpty
      | t :: _ =>
        if registeredType t then
          if address = "" then .usageNoAddress else .constCall t
        else .panicNilConverter
    else
      if address = "" then .usageNoAddress else .txnDispatch

/-- Exit code observable from an outcome: 1 for fatal/usage exits, none
when the handler either panics (Go runtime crash, not an orderly exit) or
proceeds past the modelled point. -/
def exitCode : RunOutcome → Option Nat
  | .fatalParse => some 1
  | .usageNoAddress => some 1
  | _ => none

/-- Whether the outcome involved establishing a connection to the remote
node (getNode is first called inside getDeployment after the address
check). -/
def connectsNode : RunOutcome → Bool
  | .constCall _ => true
  | .txnDispatch => true
  | _ => false

/-- Helper: for an @-prefixed argument, parseKey either terminates or
returns an actual key, never nil without terminating. -/
theorem parseKeyM_at_fatal_or_some (env : Env) (s : String)
    (hat : strStartsWith s "@" = true) :
    (parseKeyM env s).fatalExit = true ∨
    (parseKeyM env s).key.isSome = true := by
  have hs : ¬s = "" := strStartsWith_at_ne_empty s hat
  simp only [parseKeyM, hat, if_true, if_neg hs, parseKeyTail]
  split_ifs with h1
  · left
    rfl
  · right
    rcases hk : toECDSA (goHexDecode (env ("POKE_" ++ strDrop s 1))).1 with
      _ | d
    · exact absurd (Or.inr hk) h1
    · simp [hk]

/-- Helper: parseAddress never reaches the nil-key dereference. -/
theorem parseAddressM_no_panic (env : Env) (s : String) :
    parseAddressM env s ≠ .panicNilKey := by
  by_cases hat : strStartsWith s "@" = true
  · simp only [parseAddressM, hat, if_true]
    cases hf : (parseKeyM env s).fatalExit
    · simp only [Bool.false_eq_true, if_false]
      rcases parseKeyM_at_fatal_or_some env s hat with h1 | h1
      · rw [hf] at h1
        exact absurd h1 (by decide)
      · rcases ho : (parseKeyM env s).key with _ | d
        · rw [ho] at h1
          exact absurd h1 (by decide)
        · simp [ho]
    · simp
  · have hat2 : strStartsWith s "@" = false := by
      cases hb : strStartsWith s "@"
      · rfl
      · exact absurd hb hat
    simp only [parseAddressM, hat2, Bool.false_eq_true, if_false,
      hexToAddressM]
    split_ifs <;> simp

/-- Helper: parsing an argument of a registered type never panics. -/
theorem runArg_no_panic (env : Env) (t a : String)
    (h : registeredType t = true) : runArg env t a ≠ .argPanicNil := by
  have hc : t = "address" ∨ t = "uint256" ∨ t = "bool" ∨ t = "string" := by
    simpa [registeredType, or_assoc] using h
  rcases hc with hc | hc | hc | hc <;> subst hc
  · simp only [runArg, if_pos rfl]
    rcases hp : parseAddressM env a with a2 | e2 | _
    · simp
    · simp
    · exact absurd hp (parseAddressM_no_panic env a)
  · simp only [runArg]
    rcases parseToAtto a with _ | v <;> simp
  · simp only [runArg]
    rcases goParseBool a with _ | b <;> simp
  · simp [runArg]

/-- Helper: with registered input types and a matching argument count (the
Args validator enforces exact count before Run), the parse loop either
succeeds or exits fatally — it cannot panic. -/
theorem parseLoop_no_panic (env : Env) (tys args : List String)
    (hreg : ∀ t ∈ tys, registeredType t = true)
    (hlen : args.length = tys.length) :
    parseLoop env tys args = .allParsed ∨
    parseLoop env tys args = .loopFatal := by
  induction tys generalizing args with
  | nil =>
    cases args with
    | nil => left; rfl
    | cons a rest => simp at hlen
  | cons t ts ih =>
    cases args with
    | nil => left; rfl
    | cons a rest =>
      unfold parseLoop
      rcases hr : runArg env t a with _ | _ | _
      · exact ih rest (fun x hx => hreg x (List.mem_cons_of_mem t hx))
          (by simpa using hlen)
      · right; rfl
      · exact absurd hr (runArg_no_panic env t a
          (hreg t (List.mem_cons_self t ts)))

/-- Claim C6, counterexample: a constant method that declares zero outputs
crashes on the out-of-range Outputs[0] access before the address check, so
its invocation with no configured address is a Go panic, not a usage error
with exit code 1. -/
theorem constCall_no_address_counterexample :
    runHandler (fun _ => "") "" ⟨"f", true, [], []⟩ [] =
      .panicOutputsEmpty ∧
    exitCode RunOutcome.panicOutputsEmpty = none ∧
    RunOutcome.panicOutputsEmpty ≠ RunOutcome.usageNoAddress := by
  refine ⟨rfl, rfl, by decide⟩

/-- Claim C6, amended: for every invocation of a synthesized constant
method command with at least one declared output whose first output type
is registered, registered input types and an argument count matching the
declaration, when no deployed-contract address is configured the process
exits with code 1 (the address usage error, or the argument-parse fatal
error for malformed arguments) and never establishes a node connection. -/
theorem constCall_no_address_exits (env : Env) (m : SolMethod)
    (args : List String) (t : String) (rest : List String)
    (hconst : m.const = true)
    (houts : m.outputTypes = t :: rest)
    (hregOut : registeredType t = true)
    (hreg : ∀ ty ∈ m.inputTypes, registeredType ty = true)
    (hlen : args.length = m.inputTypes.length) :
    exitCode (runHandler env "" m args) = some 1 ∧
    connectsNode (runHandler env "" m args) = false ∧
    (runHandler env "" m args = .usageNoAddress ∨
     runHandler env "" m args = .fatalParse) := by
  rcases parseLoop_no_panic env m.inputTypes args hreg hlen with hp | hp <;>
    simp [runHandler, hp, hconst, houts, hregOut, exitCode, connectsNode]

/-- Witness for constCall_no_address_exits: a constant uint256-returning
method of no arguments with no configured address. -/
theorem constCall_no_address_exits_witness :
    exitCode (runHandler (fun _ => "") ""
      ⟨"totalSupply", true, [], ["uint256"]⟩ []) = some 1 ∧
    connectsNode (runHandler (fun _ => "") ""
      ⟨"totalSupply", true, [], ["uint256"]⟩ []) = false ∧
    (runHandler (fun _ => "") "" ⟨"totalSupply", true, [], ["uint256"]⟩ []
        = .usageNoAddress ∨
     runHandler (fun _ => "") "" ⟨"totalSupply", true, [], ["uint256"]⟩ []
        = .fatalParse) :=
  constCall_no_address_exits (fun _ => "")
    ⟨"totalSupply", true, [], ["uint256"]⟩ [] "uint256" [] rfl rfl rfl
    (by intro ty hty; simp at hty) rfl

/-- Claim C10: every constant method declaring zero outputs makes its Run
handler read Outputs[0] out of range — a crash, not a usage error — on any
invocation whose arguments pass the parse loop, regardless of the
configured address. -/
theorem constCall_zero_outputs_crashes (env : Env) (address : String)
    (m : SolMethod) (args : List String)
    (hconst : m.const = true) (houts : m.outputTypes = [])
    (hargs : parseLoop env m.inputTypes args = .allParsed) :
    runHandler env address m args = .panicOutputsEmpty ∧
    exitCode (runHandler env address m args) = none ∧
    runHandler env address m args ≠ .usageNoAddress := by
  refine ⟨?_, ?_, ?_⟩ <;> simp [runHandler, hargs, hconst, houts, exitCode]

/-- Witness for constCall_zero_outputs_crashes: a zero-output constant
method invoked with no arguments and a configured address. -/
theorem constCall_zero_outputs_crashes_witness :
    runHandler (fun _ => "") "0xdeployed" ⟨"poke", true, [], []⟩ [] =
        .panicOutputsEmpty ∧
    exitCode (runHandler (fun _ => "") "0xdeployed"
        ⟨"poke", true, [], []⟩ []) = none ∧
    runHandler (fun _ => "") "0xdeployed" ⟨"poke", true, [], []⟩ [] ≠
        .usageNoAddress :=
  constCall_zero_outputs_crashes (fun _ => "") "0xdeployed"
    ⟨"poke", true, [], []⟩ [] rfl rfl rfl

/-! ## Hardware-wallet signing (part_003 176-208)

The Signer closure built by getTxnOpts in hardware mode: assert the
transaction's declared sender matches the derived account, print the
confirmation-pending prompt, then block on the device, which either signs
or rejects.  The device's eventual answer is an oracle. -/

/-- Result of a hardware signing attempt. -/
inductive HwResult
  | fatalMismatch
  | signed (tx : Nat)
  | rejected (e : String)
deriving DecidableEq, Repr

/-- Observable trace of the signer closure: whether the pending prompt was
printed, whether the device was asked to sign, and the result. -/
structure HwSignOut where
  prompted : Bool
  deviceAsked : Bool
  result : HwResult
deriving DecidableEq, Repr

/-- Signer closure of getTxnOpts in hardware mode: mismatching sender is
fatal before any device interaction; otherwise print the prompt and block
on the device answer. -/
def hardwareSigner (account txFrom : GoAddr)
    (device : Except String Nat) : HwSignOut :=
  if txFrom ≠ account then ⟨false, false, .fatalMismatch⟩
  else
    match device with
    | .ok tx => ⟨true, true, .signed tx⟩
    | .error e => ⟨true, true, .rejected e⟩

/-- Claim C7: in hardware-signing mode, a transaction whose declared
sender differs from the derived account fails fatally before the device
is ever asked (and before the prompt); when the sender matches, the
confirmation-pending prompt is printed and the call blocks until the
device signs or rejects, returning exactly the device's answer. -/
theorem hardware_sign_gate (account txFrom : GoAddr)
    (device : Except String Nat) :
    (txFrom ≠ account →
      hardwareSigner account txFrom device =
        ⟨false, false, .fatalMismatch⟩) ∧
    (txFrom = account →
      (hardwareSigner account txFrom device).prompted = true ∧
      (hardwareSigner account txFrom device).deviceAsked = true ∧
      (hardwareSigner account txFrom device).result =
        (match device with
         | .ok tx => HwResult.signed tx
         | .error e => HwResult.rejected e)) := by
  constructor
  · intro h
    simp [hardwareSigner, h]
  · intro h
    subst h
    cases device <;> simp [hardwareSigner]

/-- Witness for hardware_sign_gate: a mismatching sender is rejected
without device interaction. -/
theorem hardware_sign_gate_witness :
    hardwareSigner (GoAddr.ofKey 1) (GoAddr.ofKey 2) (Except.ok 5) =
      ⟨false, false, .fatalMismatch⟩ :=
  (hardware_sign_gate (GoAddr.ofKey 1) (GoAddr.ofKey 2) (Except.ok 5)).1
    (by decide)

end Poke
